import Mathlib

/-!
Shallow embedding of src/asyncstream/readers.py (mighelone/async-stream).

Byte strings are modelled as lists of characters, one character per byte
(the inputs of interest are ASCII, so utf-8 decoding is the identity and
Python len agrees with list length).  The codec-specific incremental
decompressors (zlib, bz2, zstd) are opaque external transducers; they are
modelled as the identity transducer, so the chunk lists below are the
decompressed byte chunks.  Python exceptions are modelled by the PyErr
type; a generator that can raise is modelled as an Except-valued function.
-/

namespace AsyncStream

abbrev Bytes := List Char

/-- A parsed CSV row: a list of fields, each a byte/char string. -/
abbrev Row := List Bytes

/-- Python exceptions that the embedded code can raise, plus the two
spec-level error kinds (HeaderUnavailableError, ReaderClosedError) that the
specification names; the source defines no such classes and never raises
them. -/
inductive PyErr where
  | valueError (msg : String)
  | nameError (missing : String)
  | typeError
  | runtimeError
  | stopAsyncIteration
  | tableDecodeError
  | headerUnavailableError
  | readerClosedError
  deriving DecidableEq, Repr

/-- Python bytes.splitlines(keepends=True): split into lines after each
line terminator (LF, CR, or CRLF), keeping the terminators; an
unterminated trailing fragment is returned as the last element and an
empty input produces no elements. -/
def splitlines : Bytes → List Bytes
  | [] => []
  | '\n' :: rest => ['\n'] :: splitlines rest
  | '\r' :: '\n' :: rest => ['\r', '\n'] :: splitlines rest
  | '\r' :: rest => ['\r'] :: splitlines rest
  | c :: rest =>
    match splitlines rest with
    | [] => [[c]]
    | l :: ls => (c :: l) :: ls

/-- Loop body of open_gzip (readers.py lines 40-50): out_buf accumulates the
decompressed bytes, each chunk is split into lines, all but the last split
piece are yielded, and the last piece (or the empty string when there are no
pieces) is retained as the new out_buf.  Returns (yielded lines, final
out_buf). -/
def openGzipAux : Bytes → List Bytes → List Bytes × Bytes
  | ob, [] => ([], ob)
  | ob, c :: cs =>
    let ls := splitlines (ob ++ c)
    let ob2 := if ls = [] then [] else ls.getLastD []
    let r := openGzipAux ob2 cs
    (ls.dropLast ++ r.1, r.2)

/-- open_gzip (readers.py lines 37-54): after the loop, decomp.flush()
(modelled as the empty string) is appended to out_buf and every line of the
result is yielded. -/
def openGzip (chunks : List Bytes) : List Bytes :=
  let r := openGzipAux [] chunks
  r.1 ++ splitlines (r.2 ++ [])

/-- open_bzip2 (readers.py lines 57-73): same per-chunk splitting as
open_gzip, but after retaining lines[-1] as the new out_buf the code also
yields lines[-1] inside the loop (lines 72-73), and there is no
end-of-stream flush. -/
def openBzip2 : Bytes → List Bytes → List Bytes
  | _, [] => []
  | ob, c :: cs =>
    let ls := splitlines (ob ++ c)
    let ob2 := if ls = [] then [] else ls.getLastD []
    ls.dropLast ++ (if ls = [] then [] else [ls.getLastD []]) ++ openBzip2 ob2 cs

/-- Loop of open_zstd (readers.py lines 80-90).  The second component is
the value of the loop-local variable lines after the loop: none models the
variable being unbound (zero iterations). -/
def openZstdAux : Bytes → Option (List Bytes) → List Bytes → List Bytes × Option (List Bytes)
  | _, lv, [] => ([], lv)
  | ob, _, c :: cs =>
    let ls := splitlines (ob ++ c)
    let ob2 := if ls = [] then [] else ls.getLastD []
    let r := openZstdAux ob2 (some ls) cs
    (ls.dropLast ++ r.1, r.2)

/-- open_zstd (readers.py lines 76-93): after the loop the code runs
`if lines: yield lines[-1]`; lines is bound only inside the loop, so a
source yielding zero chunks raises NameError. -/
def openZstd (chunks : List Bytes) : Except PyErr (List Bytes) :=
  let r := openZstdAux [] none chunks
  match r.2 with
  | none => .error (PyErr.nameError ("lines"))
  | some ls => .ok (r.1 ++ (if ls = [] then [] else [ls.getLastD []]))

/-- CSV dialect (external tokenizer configuration, spec section 6); only the
field delimiter is modelled.  The default excel dialect uses a comma. -/
structure Dialect where
  delimiter : Char
  deriving DecidableEq

def excel : Dialect := ⟨','⟩

/-- Strip one trailing line terminator (LF, CR, or CRLF) from a line. -/
def stripLineTerm (l : Bytes) : Bytes :=
  if l.getLast? = some '\n' then
    let l2 := l.dropLast
    if l2.getLast? = some '\r' then l2.dropLast else l2
  else if l.getLast? = some '\r' then l.dropLast
  else l

/-- Split a terminator-free line into fields at the delimiter. -/
def splitField (d : Char) : Bytes → List Bytes
  | [] => [[]]
  | c :: rest =>
    if c = d then [] :: splitField d rest
    else
      match splitField d rest with
      | [] => [[c]]
      | f :: fs => (c :: f) :: fs

/-- One row produced by Python csv.reader for one input line (external
collaborator, modelled for quote-free input): the line terminator is
stripped, a blank line gives the empty row, and otherwise the line is split
at the dialect delimiter. -/
def csvRow (dl : Dialect) (l : Bytes) : Row :=
  let s := stripLineTerm l
  if s = [] then [] else splitField dl.delimiter s

/-- Batching loop of reader_compressed (readers.py lines 170-179): each line
is appended to the buffer and its byte length added to buffer_len; as soon
as buffer_len >= buffer_size the buffer is emitted and reset.  After the
loop a non-empty leftover buffer is emitted once (lines 181-183). -/
def batchAux (bsize : Nat) : List Bytes → List Bytes → Nat → List (List Bytes)
  | [], buf, _ => if buf = [] then [] else [buf]
  | l :: rest, buf, blen =>
    let blen2 := blen + l.length
    let buf2 := buf ++ [l]
    if bsize ≤ blen2 then buf2 :: batchAux bsize rest [] 0
    else batchAux bsize rest buf2 blen2

def batchSplit (bsize : Nat) (lines : List Bytes) : List (List Bytes) :=
  batchAux bsize lines [] 0

/-- Total byte length of a buffered batch. -/
def sumLen (b : List Bytes) : Nat := (b.map List.length).sum

/-- reader_compressed (readers.py lines 157-183): dispatch on the
compression string (an unknown string raises ValueError at first pull),
then batch the resulting lines and tokenize each batch with csv.reader,
yielding the rows of each batch in order. -/
def readerCompressed (compression : Option String) (bufferSize : Nat)
    (dialect : Dialect) (chunks : List Bytes) : Except PyErr (List Row) :=
  let linesE : Except PyErr (List Bytes) :=
    match compression with
    | none => .ok chunks
    | some c =>
      if c = "gzip" then .ok (openGzip chunks)
      else if c = "bzip2" then .ok (openBzip2 [] chunks)
      else if c = "zstd" then openZstd chunks
      else .error (PyErr.valueError ("Invalid compression " ++ c))
  match linesE with
  | .error e => .error e
  | .ok lines =>
    .ok (((batchSplit bufferSize lines).map (fun b => b.map (csvRow dialect))).flatten)

/-- A materialized table (external pandas/pyarrow decoder result, spec
section 4.4): column names plus rows already converted to text. -/
structure Table where
  columns : Row
  rows : List Row

/-- reader_columnar (readers.py lines 142-155): dispatch on the encoding
string (an unknown string raises ValueError at first pull); parquet and orc
spool the whole stream and hand it to an opaque table decoder, then yield
the header row when ignore_header is false followed by the table rows.
The compression argument is accepted but never used by the source. -/
def readerColumnar (decodeParquet decodeOrc : Bytes → Option Table)
    (encoding : String) (compression : Option String) (bufferSize : Nat)
    (ignoreHeader : Bool) (chunks : List Bytes) : Except PyErr (List Row) :=
  if encoding = "parquet" then
    match decodeParquet chunks.flatten with
    | some t => .ok ((if ignoreHeader then [] else [t.columns]) ++ t.rows)
    | none => .error PyErr.tableDecodeError
  else if encoding = "orc" then
    match decodeOrc chunks.flatten with
    | some t => .ok ((if ignoreHeader then [] else [t.columns]) ++ t.rows)
    | none => .error PyErr.tableDecodeError
  else .error (PyErr.valueError ("Invalid encoding " ++ encoding))

/-- The _header attribute of AsyncReader: unset models None; pendingCoro
models an __anext__ coroutine that was created but not yet awaited; awaited
models a coroutine that has already been awaited (re-awaiting one raises
RuntimeError). -/
inductive HSlot where
  | unset
  | pendingCoro
  | awaited (r : Except PyErr Row)

/-- AsyncReader state (readers.py lines 202-229): the wrapped async
generator is modelled as its list of produced records plus a cursor; each
await of an __anext__ coroutine advances the cursor by one. -/
structure AsyncReaderState where
  records : List Row
  pos : Nat
  ignoreHeader : Bool
  hslot : HSlot

def AsyncReaderState.init (records : List Row) (ignoreHeader : Bool) : AsyncReaderState :=
  ⟨records, 0, ignoreHeader, HSlot.unset⟩

/-- The guard shared by header() and __anext__ (readers.py lines 209-210 and
224-225): if ignore_header is false and _header is falsy, store a fresh
un-awaited __anext__ coroutine in _header. -/
def capture (s : AsyncReaderState) : AsyncReaderState :=
  match s.ignoreHeader, s.hslot with
  | false, HSlot.unset => { s with hslot := HSlot.pendingCoro }
  | _, _ => s

/-- Awaiting one __anext__ coroutine of the wrapped generator: return the
record at the cursor (StopAsyncIteration when exhausted) and advance. -/
def pull (s : AsyncReaderState) : Except PyErr Row × AsyncReaderState :=
  match s.records.get? s.pos with
  | some r => (.ok r, { s with pos := s.pos + 1 })
  | none => (.error PyErr.stopAsyncIteration, { s with pos := s.pos + 1 })

/-- await reader.__anext__() (readers.py lines 223-226): run the capture
guard, then await a fresh coroutine of the wrapped generator.  The stored
header coroutine, if any, is not awaited here. -/
def anext (s : AsyncReaderState) : Except PyErr Row × AsyncReaderState :=
  pull (capture s)

/-- await reader.header() (readers.py lines 208-212): run the capture
guard, then await self._header.  Awaiting None (ignore_header true, no
header supplied) raises TypeError; awaiting an already-awaited coroutine
raises RuntimeError. -/
def header (s : AsyncReaderState) : Except PyErr Row × AsyncReaderState :=
  let s1 := capture s
  match s1.hslot with
  | HSlot.pendingCoro =>
    let r := pull s1
    (r.1, { r.2 with hslot := HSlot.awaited r.1 })
  | HSlot.unset => (.error PyErr.typeError, s1)
  | HSlot.awaited _ => (.error PyErr.runtimeError, s1)

/-- await reader.close() (readers.py lines 228-229): the body is pass. -/
def close (s : AsyncReaderState) : AsyncReaderState := s

/-- async-for over the reader: call and await __anext__ until an exception
(StopAsyncIteration) is raised; fuel bounds the recursion. -/
def drain (s : AsyncReaderState) : Nat → List Row
  | 0 => []
  | n + 1 =>
    match anext s with
    | (.ok r, s2) => r :: drain s2 n
    | (.error _, _) => []

/-- The reader object built by the reader facade, before any pull: calling
an async generator function runs none of its body, so construction only
records the configuration.  dialect and the extra tokenizer arguments are
not part of the state because reader (readers.py line 238) does not forward
them to reader_compressed. -/
structure PendingReader where
  encoding : Option String
  compression : Option String
  bufferSize : Nat
  ignoreHeader : Bool
  deriving DecidableEq

/-- reader (readers.py lines 232-238): construct an AsyncReader around
reader_columnar when encoding is truthy, else around reader_compressed
called as reader_compressed(fd, compression, buffer_size) — dialect, args
and kwargs are dropped.  The body performs no validation and cannot raise:
it always returns a reader object. -/
def readerMk (encoding compression : Option String) (bufferSize : Nat)
    (dialect : Dialect) (args : List String) (ignoreHeader : Bool) :
    Except PyErr PendingReader :=
  .ok ⟨encoding, compression, bufferSize, ignoreHeader⟩

/-- Python truthiness of the encoding argument: None and the empty string
select the text path. -/
def optTruthy : Option String → Bool
  | none => false
  | some s => !s.isEmpty

/-- Fully consuming the reader returned by the reader facade: evaluate the
selected generator, then iterate the AsyncReader wrapper to exhaustion. -/
def readerRows (decodeParquet decodeOrc : Bytes → Option Table)
    (encoding compression : Option String) (bufferSize : Nat)
    (dialect : Dialect) (args : List String) (ignoreHeader : Bool)
    (chunks : List Bytes) : Except PyErr (List Row) :=
  match readerMk encoding compression bufferSize dialect args ignoreHeader with
  | .error e => .error e
  | .ok p =>
    let gen : Except PyErr (List Row) :=
      if optTruthy p.encoding then
        readerColumnar decodeParquet decodeOrc (p.encoding.getD "") p.compression
          p.bufferSize p.ignoreHeader chunks
      else readerCompressed p.compression p.bufferSize excel chunks
    match gen with
    | .error e => .error e
    | .ok rows => .ok (drain (AsyncReaderState.init rows p.ignoreHeader) (rows.length + 1))

/-- A table decoder that always fails; used to instantiate theorems whose
statement never reaches the columnar path. -/
def noDec : Bytes → Option Table := fun _ => none

/-- Except PyErr success test. -/
def isOkE : Except PyErr (List Bytes) → Bool
  | .ok _ => true
  | .error _ => false

end AsyncStream

namespace AsyncStream

/-! Helper lemmas (shared, not tied to a single claim). -/

theorem sumLen_concat (b : List Bytes) (l : Bytes) :
    sumLen (b ++ [l]) = sumLen b + l.length := by
  simp [sumLen]

theorem sumLen_dropLast_le (b : List Bytes) : sumLen b.dropLast ≤ sumLen b := by
  induction b with
  | nil => simp
  | cons x xs ih =>
    cases xs with
    | nil => simp [sumLen]
    | cons y ys =>
      simp only [List.dropLast_cons₂, sumLen, List.map_cons, List.sum_cons] at *
      omega

theorem batchAux_flatten (bsize : Nat) :
    ∀ (rest buf : List Bytes) (blen : Nat),
      (batchAux bsize rest buf blen).flatten = buf ++ rest := by
  intro rest
  induction rest with
  | nil =>
    intro buf blen
    by_cases h : buf = [] <;> simp [batchAux, h]
  | cons l rest ih =>
    intro buf blen
    simp only [batchAux]
    by_cases h : bsize ≤ blen + l.length
    · simp [h, ih]
    · simp [h, ih]

theorem batchAux_batches (bsize : Nat) (h : 0 < bsize) :
    ∀ (rest buf : List Bytes) (blen : Nat), blen = sumLen buf → sumLen buf < bsize →
      ∀ B ∈ batchAux bsize rest buf blen, B ≠ [] ∧ sumLen B.dropLast < bsize := by
  intro rest
  induction rest with
  | nil =>
    intro buf blen hb hlt B hB
    by_cases hbuf : buf = []
    · simp [batchAux, hbuf] at hB
    · simp only [batchAux, if_neg hbuf, List.mem_singleton] at hB
      subst hB
      exact ⟨hbuf, lt_of_le_of_lt (sumLen_dropLast_le _) hlt⟩
  | cons l rest ih =>
    intro buf blen hb hlt B hB
    simp only [batchAux] at hB
    by_cases hth : bsize ≤ blen + l.length
    · rw [if_pos hth] at hB
      rcases List.mem_cons.mp hB with hB | hB
      · subst hB
        refine ⟨by simp, ?_⟩
        rw [List.dropLast_concat]
        exact hlt
      · exact ih [] 0 rfl (by simpa [sumLen] using h) B hB
    · rw [if_neg hth] at hB
      have h1 : blen + l.length = sumLen (buf ++ [l]) := by rw [sumLen_concat, hb]
      exact ih (buf ++ [l]) (blen + l.length) h1 (by rw [← h1]; omega) B hB

theorem batchAux_nonfinal (bsize : Nat) :
    ∀ (rest buf : List Bytes) (blen : Nat), blen = sumLen buf →
      ∀ B ∈ (batchAux bsize rest buf blen).dropLast, bsize ≤ sumLen B := by
  intro rest
  induction rest with
  | nil =>
    intro buf blen hb B hB
    by_cases hbuf : buf = [] <;> simp [batchAux, hbuf] at hB
  | cons l rest ih =>
    intro buf blen hb B hB
    simp only [batchAux] at hB
    by_cases hth : bsize ≤ blen + l.length
    · rw [if_pos hth] at hB
      cases hrec : batchAux bsize rest [] 0 with
      | nil => rw [hrec] at hB; simp at hB
      | cons t ts =>
        rw [hrec, List.dropLast_cons₂] at hB
        rcases List.mem_cons.mp hB with hB | hB
        · subst hB
          rw [sumLen_concat, ← hb]
          omega
        · have hmem := ih [] 0 rfl B
          rw [hrec] at hmem
          exact hmem hB
    · rw [if_neg hth] at hB
      exact ih (buf ++ [l]) (blen + l.length) (by rw [sumLen_concat, hb]) B hB

theorem openZstdAux_some (cs : List Bytes) :
    ∀ (ob : Bytes) (ls0 : List Bytes),
      (openZstdAux ob (some ls0) cs).2.isSome = true := by
  induction cs with
  | nil => intro ob ls0; rfl
  | cons c cs ih =>
    intro ob ls0
    simp only [openZstdAux]
    exact ih _ _

/-- Batch check used to state claim C6: every emitted batch is non-empty and
was cut at the first record that made the running length reach the
threshold (so the batch minus its last record is still below it). -/
def batchOkAll (bsize : Nat) (bs : List (List Bytes)) : Bool :=
  bs.all (fun B => !B.isEmpty && decide (sumLen B.dropLast < bsize))

/-- Batch check used to state claim C6: every non-final batch reached the
threshold. -/
def batchNonfinal (bsize : Nat) (bs : List (List Bytes)) : Bool :=
  bs.dropLast.all (fun B => decide (bsize ≤ sumLen B))

end AsyncStream

namespace AsyncStream

/-- Claim C1: the claim states that the text path yields the same record
sequence for every chunking of the same byte input.  The bzip2 leg violates
this: the decompressed bytes ab, fed as the single chunk [ab], yield the one
record ab, but fed as the two chunks [a, b] they yield the records a and ab
(open_bzip2 both retains the trailing fragment and yields it on every
chunk), so the record sequences and their concatenations differ. -/
theorem c1_bzip2_chunking_dependence :
    readerCompressed (some ("bzip2")) 16384 excel ["ab".toList] = .ok [["ab".toList]] ∧
    readerCompressed (some ("bzip2")) 16384 excel ["a".toList, "b".toList] =
      .ok [["a".toList], ["ab".toList]] ∧
    "a".toList ++ "b".toList = "ab".toList ∧
    ([["ab".toList]] : List Row) ≠ [["a".toList], ["ab".toList]] :=
  ⟨rfl, rfl, rfl, by decide⟩

/-- Claim C2: the claim states that every decompressed byte appears in
exactly one yielded record on each codec path.  open_bzip2 on the
decompressed chunks [q, r] yields the records q and qr: the byte q appears
in two records, and the trailing fragment is re-yielded at every chunk
instead of exactly once at end-of-stream. -/
theorem c2_bzip2_duplicate_fragment :
    openBzip2 [] ["q".toList, "r".toList] = [['q'], ['q', 'r']] ∧
    (openBzip2 [] ["q".toList, "r".toList]).flatten = "qqr".toList ∧
    "q".toList ++ "r".toList = "qr".toList ∧
    ("qqr".toList : Bytes) ≠ "qr".toList :=
  ⟨rfl, rfl, rfl, by decide⟩

/-- Claim C3: for the input a,b LF 1,2 LF 3,4 LF with compression None,
ignore_header true and the default dialect, the reader yields exactly the
three rows [a,b], [1,2], [3,4] in order. -/
theorem c3_concrete_rows :
    readerRows noDec noDec none none 16384 excel [] true
        (splitlines ("a,b\n1,2\n3,4\n".toList)) =
      .ok [["a".toList, "b".toList], ["1".toList, "2".toList],
           ["3".toList, "4".toList]] := rfl

/-- Claim C4 counterexample: on the fresh reader over the records [h] and
[d] with ignore_header false, the first next() returns the first record
[h], not the second record [d] as the claim states: __anext__ only stores
an un-awaited header coroutine, so the caller-awaited coroutine is the
first to advance the generator. -/
theorem c4_counterexample :
    (anext (AsyncReaderState.init [["h".toList], ["d".toList]] false)).1 =
      .ok ["h".toList] ∧ (["h".toList] : Row) ≠ ["d".toList] :=
  ⟨rfl, by decide⟩

/-- Claim C4 (amended): with ignore_header false the behaviour depends on
call order: if header() is called first it returns the first record and the
following next() returns the second; if next() is called first it returns
the first record (header capture only stores an un-started coroutine) and a
later header() returns the second record.  With ignore_header true the
first next() returns the first record. -/
theorem c4_amended (r0 r1 : Row) (rest : List Row) :
    (header (AsyncReaderState.init (r0 :: r1 :: rest) false)).1 = .ok r0 ∧
    (anext (header (AsyncReaderState.init (r0 :: r1 :: rest) false)).2).1 = .ok r1 ∧
    (anext (AsyncReaderState.init (r0 :: r1 :: rest) false)).1 = .ok r0 ∧
    (header (anext (AsyncReaderState.init (r0 :: r1 :: rest) false)).2).1 = .ok r1 ∧
    (anext (AsyncReaderState.init (r0 :: r1 :: rest) true)).1 = .ok r0 :=
  ⟨rfl, rfl, rfl, rfl, rfl⟩

/-- Claim C5 counterexample: constructing the reader with the unsupported
compression value lzma succeeds and returns a reader object; no error is
raised at construction, contrary to the claim. -/
theorem c5_counterexample :
    readerMk none (some ("lzma")) 16384 excel [] true =
      .ok ⟨none, some ("lzma"), 16384, true⟩ := rfl

/-- Claim C5 (amended): construction always succeeds (the generator bodies
do not run at call time); the descriptive ValueError for an unrecognized
compression or encoding is raised at the first pull, and the result is the
same for every source chunk list, so no chunk is consumed. -/
theorem c5_amended :
    (∀ (c : String), c ≠ "gzip" → c ≠ "bzip2" → c ≠ "zstd" →
      ∀ (bufferSize : Nat) (dialect : Dialect) (chunks : List Bytes),
        readerCompressed (some c) bufferSize dialect chunks =
          .error (PyErr.valueError ("Invalid compression " ++ c))) ∧
    (∀ (dp dO : Bytes → Option Table) (e : String), e ≠ "parquet" → e ≠ "orc" →
      ∀ (compression : Option String) (bufferSize : Nat) (ignoreHeader : Bool)
        (chunks : List Bytes),
        readerColumnar dp dO e compression bufferSize ignoreHeader chunks =
          .error (PyErr.valueError ("Invalid encoding " ++ e))) := by
  constructor
  · intro c h1 h2 h3 bs dl chunks
    simp [readerCompressed, h1, h2, h3]
  · intro dp dO e h1 h2 comp bs ih chunks
    simp [readerColumnar, h1, h2]

theorem c5_amended_witness :
    readerCompressed (some ("lzma")) 16384 excel ["x,y\n".toList] =
      .error (PyErr.valueError ("Invalid compression lzma")) ∧
    readerColumnar noDec noDec ("avro") none 16384 true ["x".toList] =
      .error (PyErr.valueError ("Invalid encoding avro")) :=
  ⟨c5_amended.1 ("lzma") (by decide) (by decide) (by decide) 16384 excel
      (["x,y\n".toList]),
   c5_amended.2 noDec noDec ("avro") (by decide) (by decide) none 16384 true
      (["x".toList])⟩

/-- Claim C6: for every record sequence and positive buffer_size, the batch
assembler emits a batch exactly when the accumulated byte length first
reaches the threshold (every batch minus its last record is below the
threshold, every non-final batch is at or above it), performs one final
flush of a non-empty leftover, and loses no record: the concatenation of
the emitted batches is the record sequence. -/
theorem c6_batching (bsize : Nat) (ls : List Bytes) (h : 0 < bsize) :
    (batchSplit bsize ls).flatten = ls ∧
    batchOkAll bsize (batchSplit bsize ls) = true ∧
    batchNonfinal bsize (batchSplit bsize ls) = true := by
  refine ⟨?_, ?_, ?_⟩
  · simpa using batchAux_flatten bsize ls [] 0
  · rw [batchOkAll, List.all_eq_true]
    intro B hB
    simp only [batchSplit] at hB
    obtain ⟨h1, h2⟩ :=
      batchAux_batches bsize h ls [] 0 rfl (by simpa [sumLen] using h) B hB
    simp [h1, h2, List.isEmpty_iff]
  · rw [batchNonfinal, List.all_eq_true]
    intro B hB
    simp only [batchSplit] at hB
    have := batchAux_nonfinal bsize ls [] 0 rfl B hB
    simpa using this

theorem c6_batching_witness :
    0 < 2 ∧
    ((batchSplit 2 [['a'], ['b', 'c'], ['d']]).flatten = [['a'], ['b', 'c'], ['d']] ∧
     batchOkAll 2 (batchSplit 2 [['a'], ['b', 'c'], ['d']]) = true ∧
     batchNonfinal 2 (batchSplit 2 [['a'], ['b', 'c'], ['d']]) = true) :=
  ⟨by decide, c6_batching 2 [['a'], ['b', 'c'], ['d']] (by decide)⟩

/-- Claim C7 counterexample: after close() the reader still yields rows:
next() on a closed reader over one record returns that record, it does not
fail with a ReaderClosedError (the source raises no such error). -/
theorem c7_counterexample :
    close (AsyncReaderState.init [["r".toList]] true) =
      AsyncReaderState.init [["r".toList]] true ∧
    (anext (close (AsyncReaderState.init [["r".toList]] true))).1 =
      .ok ["r".toList] :=
  ⟨rfl, rfl⟩

/-- Claim C7 (amended): close() is a no-op (its body is pass), hence
idempotent and callable any number of times, and next() and header() after
close() behave exactly as before it; no ReaderClosedError exists or is
raised. -/
theorem c7_amended (s : AsyncReaderState) :
    close (close s) = close s ∧ anext (close s) = anext s ∧
    header (close s) = header s :=
  ⟨rfl, rfl, rfl⟩

/-- Claim C8 counterexample: on a reader constructed with ignore_header
true and no header supplied, header() fails, but with a TypeError from
awaiting None, which is not the HeaderUnavailableError the claim names
(the source defines no such error). -/
theorem c8_counterexample :
    (header (AsyncReaderState.init [["a".toList]] true)).1 =
      .error PyErr.typeError ∧
    PyErr.typeError ≠ PyErr.headerUnavailableError :=
  ⟨rfl, by decide⟩

/-- Claim C8 (amended): for every record stream, calling header() on a
reader constructed with ignore_header true (and no header supplied) fails,
with the TypeError raised by awaiting None rather than a dedicated
HeaderUnavailableError. -/
theorem c8_amended (records : List Row) :
    (header (AsyncReaderState.init records true)).1 = .error PyErr.typeError := rfl

/-- Claim C9: the reader facade never forwards the dialect or the extra
tokenizer arguments to reader_compressed on the text path, so the yielded
rows are those of the default excel dialect for every dialect and argument
list. -/
theorem c9_dialect_not_forwarded (dp dO : Bytes → Option Table)
    (compression : Option String) (bufferSize : Nat) (dialect : Dialect)
    (args : List String) (ignoreHeader : Bool) (chunks : List Bytes) :
    readerRows dp dO none compression bufferSize dialect args ignoreHeader chunks =
      readerRows dp dO none compression bufferSize excel [] ignoreHeader chunks := rfl

/-- Claim C10: open_zstd on a source that yields zero chunks raises
NameError for the loop-local variable lines instead of yielding zero
records; on any source with at least one chunk it returns normally. -/
theorem c10_zstd_empty_source :
    openZstd ([] : List Bytes) = .error (PyErr.nameError ("lines")) ∧
    ∀ (c : Bytes) (cs : List Bytes), isOkE (openZstd (c :: cs)) = true := by
  constructor
  · rfl
  · intro c cs
    have h := openZstdAux_some cs
      (if splitlines ([] ++ c) = [] then [] else (splitlines ([] ++ c)).getLastD [])
      (splitlines ([] ++ c))
    rw [Option.isSome_iff_exists] at h
    obtain ⟨ls2, hls⟩ := h
    simp only [openZstd, openZstdAux]
    rw [hls]
    rfl

end AsyncStream
